import Mathlib

/-!
Verification of the SuvFin MCP orchestration core
(`app/services/mcp/processor.py` and the configuration in
`app/config/settings.py`) against its natural-language specification.

The Python source is shallowly embedded: pure helpers become Lean
functions, the Redis-backed state becomes an explicit `RedisState`
record threaded through the functions, the Anthropic model provider and
the tool handlers become oracle parameters, and Python exceptions become
an explicit `Except` result.  Redis keys with disjoint textual prefixes
("conv:", "rl:user:hour:", "rl:user:day:", "cache:llm:", "tokens:",
"cost:alert:") are modelled as typed keys in separate tables, which is
faithful because the prefixes make the keyspaces disjoint.  The md5
truncation in `_cache_key` is modelled by keying the cache on the
normalized text itself (an injective abstraction of the hash).
Python's `str.lower` is modelled by ASCII `Char.toLower` (all the
constant keyword sets in the source are already lower-case).
-/

namespace SuvFin

/-! ## Association lists (the Redis tables) -/

def alookup {κ α : Type} [DecidableEq κ] : List (κ × α) → κ → Option α
  | [], _ => none
  | (k, v) :: t, k' => if k' = k then some v else alookup t k'

def aset {κ α : Type} [DecidableEq κ] : List (κ × α) → κ → α → List (κ × α)
  | [], k, v => [(k, v)]
  | (k0, v0) :: t, k, v =>
      if k = k0 then (k0, v) :: t else (k0, v0) :: aset t k v

/-! ## Settings (`app/config/settings.py`, defaults as in the source) -/

structure AppSettings where
  ANTHROPIC_MODEL : String := "claude-sonnet-4-20250514"
  ANTHROPIC_MODEL_LIGHT : String := "claude-3-5-haiku-latest"
  LLM_MAX_CONVERSATION_MESSAGES : Nat := 6
  LLM_CONVERSATION_TTL : Nat := 3600
  LLM_CACHE_TTL : Nat := 300
  LLM_MAX_MESSAGES_PER_USER_HOUR : Nat := 30
  LLM_MAX_MESSAGES_PER_USER_DAY : Nat := 200
  LLM_COST_ALERT_DAILY_USD : Nat := 10
  deriving DecidableEq

def defaultSettings : AppSettings := {}

/-! ## Python string helpers

`text.strip().lower()`, `keyword in text`, and `len(text.split())`
modelled over `List Char`. -/

def pyStripChars (l : List Char) : List Char :=
  ((l.dropWhile Char.isWhitespace).reverse.dropWhile Char.isWhitespace).reverse

/-- `text.strip().lower()` as a character list. -/
def pyNormalize (s : String) : List Char :=
  (pyStripChars s.toList).map Char.toLower

def listStartsWith : List Char → List Char → Bool
  | [], _ => true
  | _ :: _, [] => false
  | p :: ps, c :: cs => p == c && listStartsWith ps cs

/-- Python `pat in hay` for strings (substring containment). -/
def listHasSub (pat : List Char) : List Char → Bool
  | [] => listStartsWith pat []
  | c :: t => listStartsWith pat (c :: t) || listHasSub pat t

/-- `len(text.split())`: number of maximal non-whitespace runs. -/
def wordCountAux : List Char → Bool → Nat
  | [], _ => 0
  | c :: t, inWord =>
      if c.isWhitespace then wordCountAux t false
      else (if inWord then 0 else 1) + wordCountAux t true

def pyWordCount (l : List Char) : Nat := wordCountAux l false

/-! ## Model router (`processor.py` lines 69–103) -/

def SIMPLE_INTENTS : List String :=
  ["oi", "olá", "ola", "bom dia", "boa tarde", "boa noite", "hey", "hi",
   "hello", "e aí", "eai", "fala", "obrigado", "obrigada", "valeu",
   "tchau", "até mais", "flw", "blz", "ok", "tudo bem", "tá", "ta",
   "sim", "não", "nao", "s", "n", "show", "beleza", "top"]

def TOOL_KEYWORDS : List String :=
  ["gast", "compro", "pague", "registr", "lança", "saldo", "relatório",
   "relatorio", "quanto", "comprovante", "foto", "imagem", "remov",
   "exclui", "delet", "apag", "edit", "alter", "mud",
   "categ", "receita", "entrada", "salário", "salario", "renda"]

/-- Embeds `_select_model` (processor.py lines 85–103). -/
def select_model (s : AppSettings) (text : String) : String :=
  let text_lower := pyNormalize text
  if SIMPLE_INTENTS.contains (String.mk text_lower) ∨ text_lower.length ≤ 3 then
    s.ANTHROPIC_MODEL_LIGHT
  else if TOOL_KEYWORDS.any (fun kw => listHasSub kw.toList text_lower) then
    s.ANTHROPIC_MODEL
  else if pyWordCount text_lower ≤ 5 then
    s.ANTHROPIC_MODEL_LIGHT
  else
    s.ANTHROPIC_MODEL

/-! ## Redis state

Typed keys for the disjoint key prefixes used by the processor. -/

inductive CKey
  | hour (phone : String)   -- "rl:user:hour:{phone}"
  | day (phone : String)    -- "rl:user:day:{phone}"
  deriving DecidableEq

inductive SKey
  | cacheLLM (phone : String) (normText : String)  -- "cache:llm:{phone}:{md5 hash}"
  | costAlert (today : String)                     -- "cost:alert:{today}"
  deriving DecidableEq

inductive HKey
  | user (phone today : String)  -- "tokens:user:{phone}:{today}"
  | global (today : String)      -- "tokens:global:{today}"
  deriving DecidableEq

/-- One stored conversation entry: the json-encoded {"role","content"} pair. -/
abbrev Msg := String × String

structure RedisState where
  counters   : List (CKey × Nat) := []
  counterExp : List (CKey × Nat) := []
  convs      : List (String × List Msg) := []
  convExp    : List (String × Nat) := []
  strs       : List (SKey × String) := []
  strExp     : List (SKey × Nat) := []
  hashes     : List (HKey × List (String × Nat)) := []
  hashExp    : List (HKey × Nat) := []
  deriving DecidableEq

def st0 : RedisState := {}

def rIncr (st : RedisState) (k : CKey) : Nat × RedisState :=
  let n := (alookup st.counters k).getD 0 + 1
  (n, { st with counters := aset st.counters k n })

def rExpireCounter (st : RedisState) (k : CKey) (ttl : Nat) : RedisState :=
  { st with counterExp := aset st.counterExp k ttl }

def rHincrby (st : RedisState) (k : HKey) (f : String) (amt : Nat) : RedisState :=
  let h := (alookup st.hashes k).getD []
  { st with hashes := aset st.hashes k (aset h f ((alookup h f).getD 0 + amt)) }

def rExpireHash (st : RedisState) (k : HKey) (ttl : Nat) : RedisState :=
  { st with hashExp := aset st.hashExp k ttl }

def rSetex (st : RedisState) (k : SKey) (ttl : Nat) (v : String) : RedisState :=
  { st with strs := aset st.strs k v, strExp := aset st.strExp k ttl }

/-- `lrange key -n -1`: the last `n` elements of the stored list. -/
def lastN {α : Type} (l : List α) (n : Nat) : List α := l.drop (l.length - n)

def rRpush (st : RedisState) (phone : String) (m : Msg) : RedisState :=
  { st with convs := aset st.convs phone (((alookup st.convs phone).getD []) ++ [m]) }

/-- `ltrim key -n -1`: keep only the last `n` elements. -/
def rLtrimLast (st : RedisState) (phone : String) (n : Nat) : RedisState :=
  { st with convs := aset st.convs phone (lastN ((alookup st.convs phone).getD []) n) }

def rExpireConv (st : RedisState) (phone : String) (ttl : Nat) : RedisState :=
  { st with convExp := aset st.convExp phone ttl }

/-! ## Model-provider and message types -/

/-- A content block of a model response (`response.content` elements).
Only text blocks have a `.text` attribute. -/
inductive CBlock
  | text (t : String)
  | toolUse (id name input : String)
  deriving DecidableEq

/-- `response.usage`; `none` models an absent attribute (`getattr` default 0). -/
structure Usage where
  input_tokens : Option Nat := none
  output_tokens : Option Nat := none
  cache_read_input_tokens : Option Nat := none
  cache_creation_input_tokens : Option Nat := none
  deriving DecidableEq

structure MResponse where
  content : List CBlock
  stop_reason : String
  usage : Usage := {}
  deriving DecidableEq

/-- Outcome of one `client.messages.create` call. -/
inductive Outcome
  | ok (r : MResponse)
  | notFound   -- anthropic.NotFoundError
  | apiError   -- any other anthropic.APIError
  | exn        -- any other exception
  deriving DecidableEq

/-- The model provider as an oracle: outcome of the n-th create call. -/
abbrev Provider := Nat → Outcome

/-- TOOL_HANDLERS as an oracle: name → optional handler; a handler maps the
(opaque) input to a result string or a raised exception message. -/
abbrev Handlers := String → Option (String → Except String String)

/-- A Python exception escaping a function of the processor. -/
inductive PyErr
  | nameError       -- reference to an unbound local variable
  | notFoundError   -- anthropic.NotFoundError
  | apiError
  | exn
  deriving DecidableEq

/-- The `tokens_used` dict; absent keys read by `.get` are the defaults. -/
structure TokensUsed where
  input : Nat := 0
  output : Nat := 0
  cacheRead : Nat := 0
  hadToolUse : Bool := false
  error : Bool := false
  blocked : Bool := false
  cached : Bool := false
  deriving DecidableEq

structure MCPResponse where
  text : String
  media : Option String := none
  media_type : Option String := none
  tokens_used : TokensUsed := {}
  deriving DecidableEq

/-- Observable side effects of a turn, for frame properties. -/
inductive Event
  | modelCall (model : String)
  | cacheLookup (phone : String)
  | cacheWrite (phone : String)
  | toolExec (name : String)
  | rateBlocked
  deriving DecidableEq

inductive PyBlock
  | text (t : String)
  | toolUse (id name input : String)
  | toolResult (tool_use_id content : String)
  | image
  deriving DecidableEq

inductive PyContent
  | str (s : String)
  | blocks (bs : List PyBlock)
  deriving DecidableEq

structure PyMsg where
  role : String
  content : PyContent
  deriving DecidableEq

/-! ## Rate limiting (`_check_user_rate_limit`, lines 434–477) -/

structure RateResult where
  allowed : Bool
  message : String := ""
  deriving DecidableEq

def hourThrottleMessage : String :=
  "⏳ Você enviou muitas mensagens. Aguarde alguns minutos e tente novamente."

def dayThrottleMessage : String :=
  "⏳ Você atingiu o limite diário de mensagens. Tente novamente amanhã! 💤"

/-- Embeds `_check_user_rate_limit`.  `redisOk = false` models every store
operation raising; the surrounding `try` then fails open (line 477). -/
def check_user_rate_limit (s : AppSettings) (phone : String) (redisOk : Bool)
    (st : RedisState) : RateResult × RedisState :=
  if !redisOk then ({ allowed := true }, st)
  else
    let (current_hour, st) := rIncr st (.hour phone)
    let st := if current_hour = 1 then rExpireCounter st (.hour phone) 3600 else st
    if s.LLM_MAX_MESSAGES_PER_USER_HOUR < current_hour then
      ({ allowed := false, message := hourThrottleMessage }, st)
    else
      let (current_day, st) := rIncr st (.day phone)
      let st := if current_day = 1 then rExpireCounter st (.day phone) 86400 else st
      if s.LLM_MAX_MESSAGES_PER_USER_DAY < current_day then
        ({ allowed := false, message := dayThrottleMessage }, st)
      else
        ({ allowed := true }, st)

/-! ## Response cache (`_cache_key`, `_get_cached_response`, `_cache_response`) -/

/-- `_cache_key`: md5 of the normalized text, truncated to 12 hex chars,
modelled injectively by the normalized text itself. -/
def cache_key (phone text : String) : SKey :=
  .cacheLLM phone (String.mk (pyNormalize text))

def get_cached_response (phone text : String) (redisOk : Bool)
    (st : RedisState) : Option String :=
  if !redisOk then none else alookup st.strs (cache_key phone text)

def cache_response (s : AppSettings) (phone text response : String)
    (redisOk : Bool) (st : RedisState) : RedisState :=
  if !redisOk then st
  else rSetex st (cache_key phone text) s.LLM_CACHE_TTL response

/-! ## Conversation history (`_get_conversation`, `_save_conversation`) -/

def get_conversation (s : AppSettings) (phone : String) (redisOk : Bool)
    (st : RedisState) : List Msg :=
  if !redisOk then []
  else lastN ((alookup st.convs phone).getD []) s.LLM_MAX_CONVERSATION_MESSAGES

def save_conversation (s : AppSettings) (phone role content : String)
    (redisOk : Bool) (st : RedisState) : RedisState :=
  if !redisOk then st
  else
    let st := rRpush st phone (role, content)
    let st := rLtrimLast st phone s.LLM_MAX_CONVERSATION_MESSAGES
    rExpireConv st phone s.LLM_CONVERSATION_TTL

/-! ## Token telemetry (`_track_tokens`, `_check_cost_alert`) -/

/-- Embeds `_check_cost_alert`.  The float cost estimate
`(input/1e6)*3.00 + (output/1e6)*15.00 >= threshold` is modelled exactly
over the integers (scaled by 1e6). -/
def check_cost_alert (s : AppSettings) (today : String) (st : RedisState) : RedisState :=
  let data := (alookup st.hashes (.global today)).getD []
  if data = [] then st
  else
    let input := (alookup data "input").getD 0
    let output := (alookup data "output").getD 0
    let already_alerted := (alookup st.strs (.costAlert today)).isSome
    if s.LLM_COST_ALERT_DAILY_USD * 1000000 ≤ 3 * input + 15 * output ∧ ¬already_alerted then
      rSetex st (.costAlert today) 86400 "1"
    else st

/-- Embeds `_track_tokens` (lines 509–554).  With the store down the body's
first store call raises and the `except` returns `{"input": 0, "output": 0}`
(note: that dict has no `had_tool_use`/`error` key, so both read as falsy). -/
def track_tokens (s : AppSettings) (phone today : String) (r : MResponse)
    (redisOk : Bool) (st : RedisState) : TokensUsed × RedisState :=
  if !redisOk then ({ input := 0, output := 0 }, st)
  else
    let input_tokens := r.usage.input_tokens.getD 0
    let output_tokens := r.usage.output_tokens.getD 0
    let cache_read := r.usage.cache_read_input_tokens.getD 0
    let cache_create := r.usage.cache_creation_input_tokens.getD 0
    let had_tool_use := r.stop_reason == "tool_use"
    let uk : HKey := .user phone today
    let st := rHincrby st uk "input" input_tokens
    let st := rHincrby st uk "output" output_tokens
    let st := rHincrby st uk "cache_read" cache_read
    let st := rHincrby st uk "requests" 1
    let st := rExpireHash st uk 172800
    let gk : HKey := .global today
    let st := rHincrby st gk "input" input_tokens
    let st := rHincrby st gk "output" output_tokens
    let st := rHincrby st gk "cache_read" cache_read
    let st := rHincrby st gk "cache_create" cache_create
    let st := rHincrby st gk "requests" 1
    let st := rExpireHash st gk 604800
    let st := check_cost_alert s today st
    ({ input := input_tokens, output := output_tokens, cacheRead := cache_read,
       hadToolUse := had_tool_use }, st)

/-! ## Tool-call loop (`_handle_tool_loop`, lines 325–405) -/

def pendingMarker : List Char := "__PENDING_RECEIPT__:".toList

def takeBeforeMarker : List Char → List Char
  | [] => []
  | c :: t => if listStartsWith pendingMarker (c :: t) then [] else c :: takeBeforeMarker t

/-- `result.split("__PENDING_RECEIPT__:")[0].strip()`, guarded by the
`in` check (lines 358–359). -/
def stripPending (r : String) : String :=
  if listHasSub pendingMarker r.toList then
    String.mk (pyStripChars (takeBeforeMarker r.toList))
  else r

/-- Handler dispatch for one `tool_use` block (lines 347–355). -/
def runTool (handlers : Handlers) (name input : String) : String :=
  match handlers name with
  | none => "Tool '" ++ name ++ "' não encontrada."
  | some h =>
      match h input with
      | .ok result => result
      | .error e => "Erro ao executar " ++ name ++ ": " ++ e

/-- The `tool_results` list built for one response round (lines 339–367),
with a `toolExec` event per actually-dispatched handler. -/
def toolResultsOf (handlers : Handlers) : List CBlock → List PyBlock × List Event
  | [] => ([], [])
  | .text _ :: rest => toolResultsOf handlers rest
  | .toolUse id name input :: rest =>
      let result := stripPending (runTool handlers name input)
      let ev : List Event := match handlers name with
        | some _ => [.toolExec name]
        | none => []
      let (rs, evs) := toolResultsOf handlers rest
      (.toolResult id result :: rs, ev ++ evs)

/-- Serialization of assistant content blocks (lines 369–384). -/
def serializeBlock : CBlock → PyBlock
  | .text t => .text t
  | .toolUse id name input => .toolUse id name input

/-- `"".join(block.text for block in response.content if hasattr(block, "text"))`. -/
def textJoin (content : List CBlock) : String :=
  String.join (content.filterMap fun b =>
    match b with
    | .text t => some t
    | _ => none)

structure LoopOut where
  result : Except PyErr String
  st : RedisState
  idx : Nat
  events : List Event

def max_iterations : Nat := 5

def handle_tool_loop_aux (s : AppSettings) (prov : Provider) (handlers : Handlers)
    (phone today : String) (redisOk : Bool) :
    Nat → MResponse → List PyMsg → RedisState → Nat → List Event → LoopOut
  | 0, response, _msgs, st, idx, evs => ⟨.ok (textJoin response.content), st, idx, evs⟩
  | fuel + 1, response, msgs, st, idx, evs =>
      if response.stop_reason ≠ "tool_use" then
        ⟨.ok (textJoin response.content), st, idx, evs⟩
      else
        let tool_results := (toolResultsOf handlers response.content).1
        let tevs := (toolResultsOf handlers response.content).2
        let assistant_content := response.content.map serializeBlock
        let msgs := msgs ++
          [⟨"assistant", .blocks assistant_content⟩, ⟨"user", .blocks tool_results⟩]
        let evs := evs ++ tevs ++ [.modelCall s.ANTHROPIC_MODEL]
        match prov idx with
        | .ok r =>
            let st := (track_tokens s phone today r redisOk st).2
            handle_tool_loop_aux s prov handlers phone today redisOk fuel r msgs st (idx + 1) evs
        | .notFound => ⟨.error .notFoundError, st, idx + 1, evs⟩
        | .apiError => ⟨.error .apiError, st, idx + 1, evs⟩
        | .exn => ⟨.error .exn, st, idx + 1, evs⟩

/-- Embeds `_handle_tool_loop`: `for _ in range(max_iterations)` with the
`stop_reason != "tool_use"` break, one create call per iteration (its
outcome read from `prov` at the running call index), token tracking per
iteration, and the final text join. -/
def handle_tool_loop (s : AppSettings) (prov : Provider) (handlers : Handlers)
    (phone today : String) (redisOk : Bool) (response : MResponse)
    (msgs : List PyMsg) (st : RedisState) (idx : Nat) : LoopOut :=
  handle_tool_loop_aux s prov handlers phone today redisOk max_iterations response msgs st idx []

/-! ## `_process_text` (lines 217–323) -/

structure ProcOut where
  result : Except PyErr MCPResponse
  st : RedisState
  idx : Nat
  events : List Event

def lacksCapabilityKeywords : List String :=
  ["não consigo", "não tenho acesso", "preciso de"]

/-- Embeds the `needs_reroute` expression (lines 275–285). -/
def needs_reroute (use_tools : Bool) (response : MResponse) : Bool :=
  !use_tools && response.stop_reason == "end_turn" &&
    (match response.content.head? with
     | some (.text t) =>
         lacksCapabilityKeywords.any fun kw =>
           listHasSub kw.toList (t.toList.map Char.toLower)
     | _ => false)

def apiErrorMessage : String := "❌ Ops, tive um problema. Tente novamente em instantes."

def exnMessage : String := "❌ Algo deu errado. Tente novamente."

/-- The footer of `_process_text` (lines 309–323): the two history writes and
the conditional cache write, then the returned `MCPResponse`. -/
def process_text_footer (s : AppSettings) (phone text result_text : String)
    (tokens_used : TokensUsed) (redisOk : Bool) (st : RedisState) (idx : Nat)
    (evs : List Event) : ProcOut :=
  let st := save_conversation s phone "user" text redisOk st
  let st := save_conversation s phone "assistant" result_text redisOk st
  if !tokens_used.hadToolUse && !tokens_used.error then
    let st := cache_response s phone text result_text redisOk st
    ⟨.ok ⟨result_text, none, none, tokens_used⟩, st, idx, evs ++ [.cacheWrite phone]⟩
  else
    ⟨.ok ⟨result_text, none, none, tokens_used⟩, st, idx, evs⟩

/-- Embeds `_process_text` faithfully, including the source's indentation of
lines 274–299 (the re-route check and the `result_text = await
self._handle_tool_loop(...)` assignment) inside the
`except anthropic.NotFoundError` handler.  Consequences embedded here:
on a successful first create no handler runs, control reaches line 310,
and line 311 reads the unbound local `result_text` (NameError); the
`raise` at line 272 and any exception raised while executing the handler
body escape `_process_text` uncaught. -/
def process_text (s : AppSettings) (prov : Provider) (handlers : Handlers)
    (user_id phone text : String) (conversation : List Msg) (name today : String)
    (redisOk : Bool) (st : RedisState) (idx : Nat) : ProcOut :=
  let messages : List PyMsg :=
    conversation.map (fun m => ⟨m.1, .str m.2⟩) ++ [⟨"user", .str text⟩]
  let model := select_model s text
  let use_tools := model == s.ANTHROPIC_MODEL
  match prov idx with
  | .ok response =>
      let st := (track_tokens s phone today response redisOk st).2
      let st := save_conversation s phone "user" text redisOk st
      ⟨.error .nameError, st, idx + 1, [.modelCall model]⟩
  | .apiError =>
      process_text_footer s phone text apiErrorMessage { error := true }
        redisOk st (idx + 1) [.modelCall model]
  | .exn =>
      process_text_footer s phone text exnMessage { error := true }
        redisOk st (idx + 1) [.modelCall model]
  | .notFound =>
      if use_tools then
        ⟨.error .notFoundError, st, idx + 1, [.modelCall model]⟩
      else
        let evs := [Event.modelCall model, Event.modelCall s.ANTHROPIC_MODEL]
        match prov (idx + 1) with
        | .notFound => ⟨.error .notFoundError, st, idx + 2, evs⟩
        | .apiError => ⟨.error .apiError, st, idx + 2, evs⟩
        | .exn => ⟨.error .exn, st, idx + 2, evs⟩
        | .ok response =>
            let tokens_used := (track_tokens s phone today response redisOk st).1
            let st := (track_tokens s phone today response redisOk st).2
            let use_tools := true
            if needs_reroute use_tools response then
              let evs := evs ++ [Event.modelCall s.ANTHROPIC_MODEL]
              match prov (idx + 2) with
              | .notFound => ⟨.error .notFoundError, st, idx + 3, evs⟩
              | .apiError => ⟨.error .apiError, st, idx + 3, evs⟩
              | .exn => ⟨.error .exn, st, idx + 3, evs⟩
              | .ok response2 =>
                  let tokens_used := (track_tokens s phone today response2 redisOk st).1
                  let st := (track_tokens s phone today response2 redisOk st).2
                  let lo := handle_tool_loop s prov handlers phone today redisOk
                    response2 messages st (idx + 3)
                  match lo.result with
                  | .error e => ⟨.error e, lo.st, lo.idx, evs ++ lo.events⟩
                  | .ok result_text =>
                      process_text_footer s phone text result_text tokens_used
                        redisOk lo.st lo.idx (evs ++ lo.events)
            else
              let lo := handle_tool_loop s prov handlers phone today redisOk
                response messages st (idx + 2)
              match lo.result with
              | .error e => ⟨.error e, lo.st, lo.idx, evs ++ lo.events⟩
              | .ok result_text =>
                  process_text_footer s phone text result_text tokens_used
                    redisOk lo.st lo.idx (evs ++ lo.events)

/-! ## `_process_image` (lines 150–215) -/

def mediaDownloadFailMessage : String := "❌ Não consegui baixar a imagem. Tente novamente."

def visionFailMessage : String := "❌ Não consegui analisar a imagem. Tente novamente."

def receiptPlaceholder : String := "[📸 Comprovante enviado]"

def process_image_finish (s : AppSettings) (phone result_text : String)
    (redisOk : Bool) (st : RedisState) (idx : Nat) (evs : List Event) : ProcOut :=
  let st := save_conversation s phone "user" receiptPlaceholder redisOk st
  let st := save_conversation s phone "assistant" result_text redisOk st
  ⟨.ok ⟨result_text, none, none, {}⟩, st, idx, evs⟩

/-- Embeds `_process_image`: media download (oracle `mediaOk`), then the
whole create/track/loop inside one `try` whose `except Exception` yields the
vision apology.  The response cache is never touched here. -/
def process_image (s : AppSettings) (prov : Provider) (handlers : Handlers)
    (user_id phone media_id : String) (conversation : List Msg) (today : String)
    (mediaOk redisOk : Bool) (st : RedisState) (idx : Nat) : ProcOut :=
  if !mediaOk then
    ⟨.ok ⟨mediaDownloadFailMessage, none, none, {}⟩, st, idx, []⟩
  else
    let messages : List PyMsg :=
      conversation.map (fun m => ⟨m.1, .str m.2⟩) ++
        [⟨"user", .blocks [.image,
          .text "Analise este comprovante e me diga os dados para eu registrar."]⟩]
    match prov idx with
    | .ok response =>
        let st := (track_tokens s phone today response redisOk st).2
        let lo := handle_tool_loop s prov handlers phone today redisOk
          response messages st (idx + 1)
        match lo.result with
        | .ok t =>
            process_image_finish s phone t redisOk lo.st lo.idx
              ([.modelCall s.ANTHROPIC_MODEL] ++ lo.events)
        | .error _ =>
            process_image_finish s phone visionFailMessage redisOk lo.st lo.idx
              ([.modelCall s.ANTHROPIC_MODEL] ++ lo.events)
    | _ =>
        process_image_finish s phone visionFailMessage redisOk st (idx + 1)
          [.modelCall s.ANTHROPIC_MODEL]

/-! ## `process` (lines 112–148) -/

/-- Embeds `MCPProcessor.process`: rate gate, text-cache lookup, history
fetch, then dispatch to the image or text path. -/
def process (s : AppSettings) (prov : Provider) (handlers : Handlers)
    (user_id phone message_type content name today : String)
    (mediaOk redisOk : Bool) (st : RedisState) (idx : Nat) : ProcOut :=
  let rate_check := (check_user_rate_limit s phone redisOk st).1
  let st := (check_user_rate_limit s phone redisOk st).2
  if !rate_check.allowed then
    ⟨.ok ⟨rate_check.message, none, none, { blocked := true }⟩, st, idx, [.rateBlocked]⟩
  else
    let cached :=
      if message_type == "text" then get_cached_response phone content redisOk st else none
    let cacheEvs : List Event :=
      if message_type == "text" then [.cacheLookup phone] else []
    match cached with
    | some c =>
        ⟨.ok ⟨c, none, none, { cached := true }⟩, st, idx, cacheEvs⟩
    | none =>
        let conversation := get_conversation s phone redisOk st
        if message_type == "image" then
          let out := process_image s prov handlers user_id phone content conversation
            today mediaOk redisOk st idx
          { out with events := cacheEvs ++ out.events }
        else
          let out := process_text s prov handlers user_id phone content conversation
            name today redisOk st idx
          { out with events := cacheEvs ++ out.events }

/-- Iterated text turns of one user starting from the empty store:
state and provider call index after `n` turns. -/
def runTurns (s : AppSettings) (prov : Provider) (handlers : Handlers)
    (user_id phone content name today : String) (redisOk : Bool) :
    Nat → RedisState × Nat
  | 0 => (st0, 0)
  | n + 1 =>
      let acc := runTurns s prov handlers user_id phone content name today redisOk n
      let out := process s prov handlers user_id phone "text" content name today
        true redisOk acc.1 acc.2
      (out.st, out.idx)

/-- The (n+1)-th text turn: `process` applied to the state after `n` turns. -/
def turnOut (s : AppSettings) (prov : Provider) (handlers : Handlers)
    (user_id phone content name today : String) (redisOk : Bool) (n : Nat) : ProcOut :=
  let acc := runTurns s prov handlers user_id phone content name today redisOk n
  process s prov handlers user_id phone "text" content name today true redisOk acc.1 acc.2

/-! ## State accessors and event predicates used by the theorems -/

/-- Hash-field read: `hgetall(key).get(field)`. -/
def hget (st : RedisState) (k : HKey) (f : String) : Option Nat :=
  alookup ((alookup st.hashes k).getD []) f

/-- Hash-field read defaulting to 0. -/
def hgetD (st : RedisState) (k : HKey) (f : String) : Nat :=
  (hget st k f).getD 0

/-- TTL currently set on a token-usage record. -/
def hexp (st : RedisState) (k : HKey) : Option Nat :=
  alookup st.hashExp k

/-- The rate-limiter's slice of the store (both counters tables). -/
def rlState (st : RedisState) : List (CKey × Nat) × List (CKey × Nat) :=
  (st.counters, st.counterExp)

/-- Events that the tool loop can emit. -/
def loopEvent (e : Event) : Prop :=
  (∃ m, e = Event.modelCall m) ∨ (∃ n, e = Event.toolExec n)

/-- Events that `_process_text` can emit. -/
def textEvent (e : Event) : Prop :=
  loopEvent e ∨ (∃ p, e = Event.cacheWrite p)

/-- Hourly-count view of the rate limiter state for one user. -/
def hourCount (st : RedisState) (phone : String) : Nat :=
  (alookup st.counters (CKey.hour phone)).getD 0

def dayCount (st : RedisState) (phone : String) : Nat :=
  (alookup st.counters (CKey.day phone)).getD 0

/-! ## Concrete scenarios used by the theorems below -/

/-- A successful terminal model reply (a greeting). -/
def greetingResponse : MResponse :=
  { content := [CBlock.text "Olá! Sou o SuvFin"], stop_reason := "end_turn",
    usage := { input_tokens := some 10, output_tokens := some 5 } }

/-- Provider that answers every create call successfully with a terminal reply. -/
def provOkGreeting : Provider := fun _ => Outcome.ok greetingResponse

def noHandlers : Handlers := fun _ => none

/-- A terminal reply whose text matches the lacks-capability heuristic. -/
def lacksResponse : MResponse :=
  { content := [CBlock.text "Não consigo fazer isso."], stop_reason := "end_turn" }

def provLacks : Provider := fun _ => Outcome.ok lacksResponse

/-- Provider whose first create raises NotFoundError and whose later calls
succeed with a terminal reply (the light→full fallback scenario). -/
def provFallback : Provider :=
  fun n => if n = 0 then Outcome.notFound else Outcome.ok greetingResponse

/-- A model response that requests a tool call and carries no text block. -/
def toolOnlyResponse : MResponse :=
  { content := [CBlock.toolUse "tu_1" "saldo_atual" "\x7b\"user_id\": \"u1\"\x7d"],
    stop_reason := "tool_use" }

/-- A response whose usage reports only cache-creation tokens. -/
def cacheCreateResponse : MResponse :=
  { content := [CBlock.text "ok"], stop_reason := "end_turn",
    usage := { cache_creation_input_tokens := some 7 } }

/-! ## Lemmas about the association-list store -/

theorem alookup_aset_self {κ α : Type} [DecidableEq κ]
    (l : List (κ × α)) (k : κ) (v : α) : alookup (aset l k v) k = some v := by
  induction l with
  | nil => simp [aset, alookup]
  | cons hd t ih =>
      obtain ⟨k0, v0⟩ := hd
      by_cases h : k = k0
      · simp [aset, alookup, h]
      · simp [aset, alookup, h, ih]

theorem alookup_aset_ne {κ α : Type} [DecidableEq κ]
    (l : List (κ × α)) (k k' : κ) (v : α) (h : k' ≠ k) :
    alookup (aset l k v) k' = alookup l k' := by
  induction l with
  | nil => simp [aset, alookup, h]
  | cons hd t ih =>
      obtain ⟨k0, v0⟩ := hd
      by_cases h0 : k = k0
      · subst h0
        simp [aset, alookup, h]
      · by_cases h1 : k' = k0
        · simp [aset, alookup, h0, h1]
        · simp [aset, alookup, h0, h1, ih]

/-! ## C2 — model-routing order -/

/-- C2 counterexample: the input "mud" contains the finance-action keyword
"mud", yet `_select_model` returns the light model, because the
greeting/short-length check at line 90 runs before the keyword check at
lines 94–96 and `len("mud") <= 3`.  The claim's "the keyword check takes
precedence" is therefore false on the code. -/
theorem C2_counterexample :
    "mud" ∈ TOOL_KEYWORDS ∧
    listHasSub "mud".toList (pyNormalize "mud") = true ∧
    select_model defaultSettings "mud" = defaultSettings.ANTHROPIC_MODEL_LIGHT ∧
    defaultSettings.ANTHROPIC_MODEL_LIGHT ≠ defaultSettings.ANTHROPIC_MODEL := by
  refine ⟨by decide, by decide, by decide, by decide⟩

/-- C2 (amended): the greeting/short-length check takes precedence: every
input whose normalized text is a greeting token or has length ≤ 3 routes to
the light model; every *other* input containing a finance-action keyword
substring routes to the full model. -/
theorem C2_routing_order (s : AppSettings) (text : String) :
    ((SIMPLE_INTENTS.contains (String.mk (pyNormalize text)) ∨ (pyNormalize text).length ≤ 3) →
      select_model s text = s.ANTHROPIC_MODEL_LIGHT) ∧
    (¬(SIMPLE_INTENTS.contains (String.mk (pyNormalize text)) ∨ (pyNormalize text).length ≤ 3) →
      TOOL_KEYWORDS.any (fun kw => listHasSub kw.toList (pyNormalize text)) = true →
      select_model s text = s.ANTHROPIC_MODEL) := by
  constructor
  · intro h
    unfold select_model
    rw [if_pos h]
  · intro h hk
    unfold select_model
    rw [if_neg h, if_pos hk]

theorem C2_routing_order_witness :
    select_model defaultSettings "oi" = defaultSettings.ANTHROPIC_MODEL_LIGHT ∧
    select_model defaultSettings "quanto isso custou" = defaultSettings.ANTHROPIC_MODEL :=
  ⟨(C2_routing_order defaultSettings "oi").1 (by decide),
   (C2_routing_order defaultSettings "quanto isso custou").2 (by decide) (by decide)⟩

/-! ## C4 — bounded FIFO conversation history -/

/-- C4: after any (store-reachable) `_save_conversation` write, the stored
conversation list has length ≤ `LLM_MAX_CONVERSATION_MESSAGES`; the new
entry is appended at the end and eviction is FIFO (the post-state is a
suffix of the pre-state plus the new entry, of length
`min (before + 1) N_max`, so exactly the oldest entries are dropped). -/
theorem C4_history_bound (s : AppSettings) (st : RedisState) (phone role content : String) :
    defaultSettings.LLM_MAX_CONVERSATION_MESSAGES = 6 ∧
    ((alookup (save_conversation s phone role content true st).convs phone).getD []).length
        ≤ s.LLM_MAX_CONVERSATION_MESSAGES ∧
    ((alookup (save_conversation s phone role content true st).convs phone).getD []).length
        = min (((alookup st.convs phone).getD []).length + 1) s.LLM_MAX_CONVERSATION_MESSAGES ∧
    ((alookup (save_conversation s phone role content true st).convs phone).getD [])
        <:+ (((alookup st.convs phone).getD []) ++ [(role, content)]) := by
  have h1 : (alookup (save_conversation s phone role content true st).convs phone).getD []
      = lastN (((alookup st.convs phone).getD []) ++ [(role, content)])
          s.LLM_MAX_CONVERSATION_MESSAGES := by
    simp [save_conversation, rRpush, rLtrimLast, rExpireConv, alookup_aset_self]
  rw [h1]
  unfold lastN
  refine ⟨rfl, ?_, ?_, List.drop_suffix _ _⟩
  · simp only [List.length_drop, List.length_append, List.length_cons, List.length_nil]
    omega
  · simp only [List.length_drop, List.length_append, List.length_cons, List.length_nil]
    omega

/-! ## C10 — hourly rejection does not touch the daily counter -/

/-- C10: when the hourly check rejects (incremented hourly count exceeds
`LLM_MAX_MESSAGES_PER_USER_HOUR`), `_check_user_rate_limit` returns the
hourly throttle result and the daily counter and daily expiry are left
exactly as they were. -/
theorem C10_hourly_reject_skips_daily (s : AppSettings) (st : RedisState) (phone : String)
    (h : s.LLM_MAX_MESSAGES_PER_USER_HOUR < (alookup st.counters (CKey.hour phone)).getD 0 + 1) :
    (check_user_rate_limit s phone true st).1
        = { allowed := false, message := hourThrottleMessage } ∧
    alookup (check_user_rate_limit s phone true st).2.counters (CKey.day phone)
        = alookup st.counters (CKey.day phone) ∧
    alookup (check_user_rate_limit s phone true st).2.counterExp (CKey.day phone)
        = alookup st.counterExp (CKey.day phone) := by
  have hd : CKey.day phone ≠ CKey.hour phone := by simp
  unfold check_user_rate_limit rIncr rExpireCounter
  simp only [Bool.not_true, Bool.false_eq_true, if_false]
  rw [if_pos h]
  refine ⟨rfl, ?_⟩
  split <;> simp [alookup_aset_ne _ _ _ _ hd]

/-! ## Frame lemmas: nothing downstream of the rate gate touches the
rate-limiter counters -/

theorem needs_reroute_true (r : MResponse) : needs_reroute true r = false := by
  simp [needs_reroute]

theorem rlState_check_cost_alert (s : AppSettings) (today : String) (st : RedisState) :
    rlState (check_cost_alert s today st) = rlState st := by
  unfold check_cost_alert
  dsimp only
  split_ifs <;> simp [rSetex, rlState]

theorem check_cost_alert_counters (s : AppSettings) (today : String) (st : RedisState) :
    (check_cost_alert s today st).counters = st.counters := by
  unfold check_cost_alert
  dsimp only
  split_ifs <;> simp [rSetex]

theorem check_cost_alert_counterExp (s : AppSettings) (today : String) (st : RedisState) :
    (check_cost_alert s today st).counterExp = st.counterExp := by
  unfold check_cost_alert
  dsimp only
  split_ifs <;> simp [rSetex]

theorem rlState_track_tokens (s : AppSettings) (phone today : String) (r : MResponse)
    (redisOk : Bool) (st : RedisState) :
    rlState (track_tokens s phone today r redisOk st).2 = rlState st := by
  cases redisOk
  · rfl
  · simp [track_tokens, rHincrby, rExpireHash, rlState,
      check_cost_alert_counters, check_cost_alert_counterExp]

theorem rlState_save_conversation (s : AppSettings) (phone role content : String)
    (redisOk : Bool) (st : RedisState) :
    rlState (save_conversation s phone role content redisOk st) = rlState st := by
  cases redisOk <;>
    simp [save_conversation, rRpush, rLtrimLast, rExpireConv, rlState]

theorem rlState_cache_response (s : AppSettings) (phone text response : String)
    (redisOk : Bool) (st : RedisState) :
    rlState (cache_response s phone text response redisOk st) = rlState st := by
  cases redisOk <;> simp [cache_response, rSetex, rlState]

theorem rlState_handle_tool_loop_aux (s : AppSettings) (prov : Provider)
    (handlers : Handlers) (phone today : String) (redisOk : Bool) :
    ∀ (fuel : Nat) (r : MResponse) (msgs : List PyMsg) (st : RedisState)
      (idx : Nat) (evs : List Event),
      rlState (handle_tool_loop_aux s prov handlers phone today redisOk
        fuel r msgs st idx evs).st = rlState st := by
  intro fuel
  induction fuel with
  | zero =>
      intro r msgs st idx evs
      simp [handle_tool_loop_aux]
  | succ n ih =>
      intro r msgs st idx evs
      unfold handle_tool_loop_aux
      split
      · simp
      · cases hp : prov idx with
        | ok r' =>
            simp only [hp]
            rw [ih r' _ _ (idx + 1) _]
            exact rlState_track_tokens s phone today r' redisOk st
        | notFound => simp [hp]
        | apiError => simp [hp]
        | exn => simp [hp]

theorem rlState_process_text_footer (s : AppSettings) (phone text result_text : String)
    (tokens_used : TokensUsed) (redisOk : Bool) (st : RedisState) (idx : Nat)
    (evs : List Event) :
    rlState (process_text_footer s phone text result_text tokens_used redisOk
      st idx evs).st = rlState st := by
  unfold process_text_footer
  dsimp only
  split_ifs <;>
    simp [rlState_cache_response, rlState_save_conversation]

theorem rlState_process_text (s : AppSettings) (prov : Provider) (handlers : Handlers)
    (user_id phone text : String) (conversation : List Msg) (name today : String)
    (redisOk : Bool) (st : RedisState) (idx : Nat) :
    rlState (process_text s prov handlers user_id phone text conversation name today
      redisOk st idx).st = rlState st := by
  unfold process_text
  dsimp only
  cases hp : prov idx with
  | ok r =>
      simp [hp, rlState_save_conversation, rlState_track_tokens]
  | apiError => simp [hp, rlState_process_text_footer]
  | exn => simp [hp, rlState_process_text_footer]
  | notFound =>
      simp only [hp]
      split
      · simp
      · cases hp2 : prov (idx + 1) with
        | ok r2 =>
            simp only [hp2, needs_reroute_true, if_false, Bool.false_eq_true]
            split <;>
              simp [handle_tool_loop, rlState_process_text_footer,
                rlState_handle_tool_loop_aux, rlState_track_tokens]
        | notFound => simp [hp2]
        | apiError => simp [hp2]
        | exn => simp [hp2]

theorem rlState_process_image (s : AppSettings) (prov : Provider) (handlers : Handlers)
    (user_id phone media_id : String) (conversation : List Msg) (today : String)
    (mediaOk redisOk : Bool) (st : RedisState) (idx : Nat) :
    rlState (process_image s prov handlers user_id phone media_id conversation today
      mediaOk redisOk st idx).st = rlState st := by
  unfold process_image process_image_finish
  dsimp only
  cases mediaOk with
  | false => simp
  | true =>
      rw [if_neg (by simp : ¬((!true) = true))]
      cases hp : prov idx with
      | ok r =>
          simp only [hp]
          split <;>
            simp [handle_tool_loop, rlState_save_conversation,
              rlState_handle_tool_loop_aux, rlState_track_tokens]
      | notFound => simp [hp, rlState_save_conversation]
      | apiError => simp [hp, rlState_save_conversation]
      | exn => simp [hp, rlState_save_conversation]

/-! ## Event characterization lemmas -/

theorem toolResultsOf_events (handlers : Handlers) :
    ∀ (content : List CBlock) (e : Event), e ∈ (toolResultsOf handlers content).2 →
      ∃ n, e = Event.toolExec n := by
  intro content
  induction content with
  | nil => simp [toolResultsOf]
  | cons b rest ih =>
      cases b with
      | text t =>
          intro e he
          exact ih e (by simpa [toolResultsOf] using he)
      | toolUse id name input =>
          intro e he
          cases hh : handlers name with
          | none =>
              exact ih e (by simpa [toolResultsOf, hh] using he)
          | some h =>
              rcases by simpa [toolResultsOf, hh] using he with h1 | h1
              · exact ⟨name, h1⟩
              · exact ih e h1

theorem handle_tool_loop_aux_events (s : AppSettings) (prov : Provider)
    (handlers : Handlers) (phone today : String) (redisOk : Bool) :
    ∀ (fuel : Nat) (r : MResponse) (msgs : List PyMsg) (st : RedisState)
      (idx : Nat) (evs : List Event) (e : Event),
      e ∈ (handle_tool_loop_aux s prov handlers phone today redisOk
        fuel r msgs st idx evs).events → e ∈ evs ∨ loopEvent e := by
  intro fuel
  induction fuel with
  | zero =>
      intro r msgs st idx evs e he
      exact Or.inl (by simpa [handle_tool_loop_aux] using he)
  | succ n ih =>
      intro r msgs st idx evs e
      unfold handle_tool_loop_aux
      split
      · intro he
        exact Or.inl (by simpa using he)
      · have decompose : ∀ x ∈ evs ++ (toolResultsOf handlers r.content).2 ++
            [Event.modelCall s.ANTHROPIC_MODEL], x ∈ evs ∨ loopEvent x := by
          intro x hx
          rcases List.mem_append.mp hx with hx1 | hx1
          · rcases List.mem_append.mp hx1 with hx2 | hx2
            · exact Or.inl hx2
            · rcases toolResultsOf_events handlers r.content x hx2 with ⟨nm, rfl⟩
              exact Or.inr (Or.inr ⟨nm, rfl⟩)
          · simp at hx1
            exact Or.inr (Or.inl ⟨_, hx1⟩)
        cases hp : prov idx with
        | ok r' =>
            simp only [hp]
            intro he
            rcases ih r' _ _ (idx + 1) _ e he with h1 | h1
            · exact decompose e h1
            · exact Or.inr h1
        | notFound => simp only [hp]; exact decompose e
        | apiError => simp only [hp]; exact decompose e
        | exn => simp only [hp]; exact decompose e

theorem handle_tool_loop_events (s : AppSettings) (prov : Provider)
    (handlers : Handlers) (phone today : String) (redisOk : Bool) (r : MResponse)
    (msgs : List PyMsg) (st : RedisState) (idx : Nat) (e : Event) :
    e ∈ (handle_tool_loop s prov handlers phone today redisOk r msgs st idx).events →
      loopEvent e := by
  intro he
  rcases handle_tool_loop_aux_events s prov handlers phone today redisOk
      max_iterations r msgs st idx [] e he with h | h
  · simp at h
  · exact h

theorem process_text_footer_events (s : AppSettings) (phone text result_text : String)
    (tokens_used : TokensUsed) (redisOk : Bool) (st : RedisState) (idx : Nat)
    (evs : List Event) (e : Event) :
    e ∈ (process_text_footer s phone text result_text tokens_used redisOk
      st idx evs).events → e ∈ evs ∨ (∃ p, e = Event.cacheWrite p) := by
  unfold process_text_footer
  dsimp only
  split_ifs <;> intro he
  · rcases List.mem_append.mp he with h1 | h1
    · exact Or.inl h1
    · simp at h1
      exact Or.inr ⟨_, h1⟩
  · exact Or.inl he

theorem process_text_events (s : AppSettings) (prov : Provider) (handlers : Handlers)
    (user_id phone text : String) (conversation : List Msg) (name today : String)
    (redisOk : Bool) (st : RedisState) (idx : Nat) (e : Event) :
    e ∈ (process_text s prov handlers user_id phone text conversation name today
      redisOk st idx).events → textEvent e := by
  unfold process_text
  dsimp only
  have hmc : ∀ (m : String) (x : Event), x ∈ [Event.modelCall m] → textEvent x := by
    intro m x hx
    simp at hx
    exact Or.inl (Or.inl ⟨_, hx⟩)
  have hmc2 : ∀ (m m' : String) (x : Event), x ∈ [Event.modelCall m, Event.modelCall m'] →
      textEvent x := by
    intro m m' x hx
    rcases List.mem_cons.mp hx with rfl | hx1
    · exact Or.inl (Or.inl ⟨_, rfl⟩)
    · rcases List.mem_cons.mp hx1 with rfl | hx2
      · exact Or.inl (Or.inl ⟨_, rfl⟩)
      · simp at hx2
  cases hp : prov idx with
  | ok r =>
      simp only [hp]
      intro he
      exact hmc _ e (by simpa using he)
  | apiError =>
      simp only [hp]
      intro he
      rcases process_text_footer_events _ _ _ _ _ _ _ _ _ _ he with h1 | h1
      · exact hmc _ e h1
      · exact Or.inr h1
  | exn =>
      simp only [hp]
      intro he
      rcases process_text_footer_events _ _ _ _ _ _ _ _ _ _ he with h1 | h1
      · exact hmc _ e h1
      · exact Or.inr h1
  | notFound =>
      simp only [hp]
      split
      · intro he
        exact hmc _ e (by simpa using he)
      · cases hp2 : prov (idx + 1) with
        | ok r2 =>
            simp only [hp2, needs_reroute_true, if_false, Bool.false_eq_true]
            split
            · intro he
              rcases List.mem_append.mp he with h | h
              · exact hmc2 _ _ e h
              · exact Or.inl (handle_tool_loop_events _ _ _ _ _ _ _ _ _ _ _ h)
            · intro he
              rcases process_text_footer_events _ _ _ _ _ _ _ _ _ _ he with h1 | h1
              · rcases List.mem_append.mp h1 with h | h
                · exact hmc2 _ _ e h
                · exact Or.inl (handle_tool_loop_events _ _ _ _ _ _ _ _ _ _ _ h)
              · exact Or.inr h1
        | notFound => simp only [hp2]; exact hmc2 _ _ e
        | apiError => simp only [hp2]; exact hmc2 _ _ e
        | exn => simp only [hp2]; exact hmc2 _ _ e

/-! ## Response-cache preservation lemmas -/

theorem strs_cacheLLM_check_cost_alert (s : AppSettings) (today : String)
    (st : RedisState) (p t : String) :
    alookup (check_cost_alert s today st).strs (SKey.cacheLLM p t)
      = alookup st.strs (SKey.cacheLLM p t) := by
  unfold check_cost_alert
  dsimp only
  split_ifs <;>
    simp [rSetex,
      alookup_aset_ne _ _ _ _ (by simp : SKey.cacheLLM p t ≠ SKey.costAlert today)]

theorem strs_cacheLLM_track_tokens (s : AppSettings) (phone today : String)
    (r : MResponse) (redisOk : Bool) (st : RedisState) (p t : String) :
    alookup ((track_tokens s phone today r redisOk st).2).strs (SKey.cacheLLM p t)
      = alookup st.strs (SKey.cacheLLM p t) := by
  cases redisOk
  · rfl
  · simp [track_tokens, rHincrby, rExpireHash, strs_cacheLLM_check_cost_alert]

theorem strs_save_conversation (s : AppSettings) (phone role content : String)
    (redisOk : Bool) (st : RedisState) :
    (save_conversation s phone role content redisOk st).strs = st.strs := by
  cases redisOk <;> simp [save_conversation, rRpush, rLtrimLast, rExpireConv]

theorem strs_cacheLLM_handle_tool_loop_aux (s : AppSettings) (prov : Provider)
    (handlers : Handlers) (phone today : String) (redisOk : Bool) :
    ∀ (fuel : Nat) (r : MResponse) (msgs : List PyMsg) (st : RedisState)
      (idx : Nat) (evs : List Event) (p t : String),
      alookup (handle_tool_loop_aux s prov handlers phone today redisOk
          fuel r msgs st idx evs).st.strs (SKey.cacheLLM p t)
        = alookup st.strs (SKey.cacheLLM p t) := by
  intro fuel
  induction fuel with
  | zero =>
      intro r msgs st idx evs p t
      simp [handle_tool_loop_aux]
  | succ n ih =>
      intro r msgs st idx evs p t
      unfold handle_tool_loop_aux
      split
      · simp
      · cases hp : prov idx with
        | ok r' =>
            simp only [hp]
            rw [ih r' _ _ (idx + 1) _ p t]
            exact strs_cacheLLM_track_tokens s phone today r' redisOk st p t
        | notFound => simp [hp]
        | apiError => simp [hp]
        | exn => simp [hp]

theorem process_text_footer_cache_write (s : AppSettings)
    (phone text result_text : String) (tokens_used : TokensUsed) (redisOk : Bool)
    (st : RedisState) (idx : Nat) (evs : List Event) (p t : String)
    (hne : alookup (process_text_footer s phone text result_text tokens_used redisOk
        st idx evs).st.strs (SKey.cacheLLM p t) ≠ alookup st.strs (SKey.cacheLLM p t)) :
    (process_text_footer s phone text result_text tokens_used redisOk st idx evs).result
      = Except.ok ⟨result_text, none, none, tokens_used⟩ ∧
    tokens_used.hadToolUse = false ∧ tokens_used.error = false := by
  unfold process_text_footer at hne ⊢
  dsimp only at hne ⊢
  by_cases hc : (!tokens_used.hadToolUse && !tokens_used.error) = true
  · rw [if_pos hc] at hne ⊢
    have hflags : tokens_used.hadToolUse = false ∧ tokens_used.error = false := by
      simpa using hc
    exact ⟨rfl, hflags.1, hflags.2⟩
  · rw [if_neg hc] at hne ⊢
    exact absurd (by simp [strs_save_conversation]) hne

theorem process_text_footer_cache_write_from (s : AppSettings)
    (phone text result_text : String) (tokens_used : TokensUsed) (redisOk : Bool)
    (stL stOrig : RedisState) (idx : Nat) (evs : List Event) (p t : String)
    (hpres : alookup stL.strs (SKey.cacheLLM p t) = alookup stOrig.strs (SKey.cacheLLM p t))
    (hne : alookup (process_text_footer s phone text result_text tokens_used redisOk
        stL idx evs).st.strs (SKey.cacheLLM p t) ≠ alookup stOrig.strs (SKey.cacheLLM p t)) :
    (process_text_footer s phone text result_text tokens_used redisOk stL idx evs).result
      = Except.ok ⟨result_text, none, none, tokens_used⟩ ∧
    tokens_used.hadToolUse = false ∧ tokens_used.error = false :=
  process_text_footer_cache_write s phone text result_text tokens_used redisOk stL
    idx evs p t (fun heq => hne (heq.trans hpres))

theorem process_image_events (s : AppSettings) (prov : Provider) (handlers : Handlers)
    (user_id phone media_id : String) (conversation : List Msg) (today : String)
    (mediaOk redisOk : Bool) (st : RedisState) (idx : Nat) (e : Event) :
    e ∈ (process_image s prov handlers user_id phone media_id conversation today
      mediaOk redisOk st idx).events → loopEvent e := by
  unfold process_image process_image_finish
  dsimp only
  cases mediaOk with
  | false =>
      intro he
      simp at he
  | true =>
      rw [if_neg (by simp : ¬((!true) = true))]
      cases hp : prov idx with
      | ok r =>
          simp only [hp]
          split <;> intro he <;>
          · rcases List.mem_cons.mp (by simpa using he) with rfl | h
            · exact Or.inl ⟨_, rfl⟩
            · exact handle_tool_loop_events _ _ _ _ _ _ _ _ _ _ _ h
      | notFound =>
          simp only [hp]
          intro he
          have h : e = Event.modelCall s.ANTHROPIC_MODEL := by simpa using he
          exact Or.inl ⟨_, h⟩
      | apiError =>
          simp only [hp]
          intro he
          have h : e = Event.modelCall s.ANTHROPIC_MODEL := by simpa using he
          exact Or.inl ⟨_, h⟩
      | exn =>
          simp only [hp]
          intro he
          have h : e = Event.modelCall s.ANTHROPIC_MODEL := by simpa using he
          exact Or.inl ⟨_, h⟩

/-! ## Rate-limiter behaviour lemmas -/

theorem counters_eq_of_rlState {a b : RedisState} (h : rlState a = rlState b) :
    a.counters = b.counters :=
  congrArg Prod.fst h

theorem hourCount_congr {a b : RedisState} (p : String) (h : a.counters = b.counters) :
    hourCount a p = hourCount b p := by
  simp [hourCount, h]

theorem dayCount_congr {a b : RedisState} (p : String) (h : a.counters = b.counters) :
    dayCount a p = dayCount b p := by
  simp [dayCount, h]

theorem check_rate_allowed (s : AppSettings) (phone : String) (st : RedisState)
    (h1 : hourCount st phone + 1 ≤ s.LLM_MAX_MESSAGES_PER_USER_HOUR)
    (h2 : dayCount st phone + 1 ≤ s.LLM_MAX_MESSAGES_PER_USER_DAY) :
    (check_user_rate_limit s phone true st).1 = { allowed := true } ∧
    hourCount (check_user_rate_limit s phone true st).2 phone = hourCount st phone + 1 ∧
    dayCount (check_user_rate_limit s phone true st).2 phone = dayCount st phone + 1 := by
  have hdh : CKey.day phone ≠ CKey.hour phone := by simp
  have hhd : CKey.hour phone ≠ CKey.day phone := by simp
  simp only [hourCount, dayCount] at h1 h2 ⊢
  unfold check_user_rate_limit rIncr rExpireCounter
  dsimp only
  rw [if_neg (by simp : ¬((!true) = true))]
  split_ifs <;>
    simp_all [alookup_aset_ne _ _ _ _ hdh, alookup_aset_ne _ _ _ _ hhd,
      alookup_aset_self] <;>
    omega

theorem check_rate_blocked_hour (s : AppSettings) (phone : String) (st : RedisState)
    (h : s.LLM_MAX_MESSAGES_PER_USER_HOUR < hourCount st phone + 1) :
    (check_user_rate_limit s phone true st).1
      = { allowed := false, message := hourThrottleMessage } := by
  simp only [hourCount] at h
  unfold check_user_rate_limit rIncr rExpireCounter
  dsimp only
  rw [if_neg (by simp : ¬((!true) = true))]
  split_ifs <;> simp_all

theorem check_rate_blocked_hour_counts (s : AppSettings) (phone : String) (st : RedisState)
    (h : s.LLM_MAX_MESSAGES_PER_USER_HOUR < hourCount st phone + 1) :
    hourCount (check_user_rate_limit s phone true st).2 phone = hourCount st phone + 1 ∧
    dayCount (check_user_rate_limit s phone true st).2 phone = dayCount st phone := by
  have hdh : CKey.day phone ≠ CKey.hour phone := by simp
  simp only [hourCount, dayCount] at h ⊢
  unfold check_user_rate_limit rIncr rExpireCounter
  dsimp only
  rw [if_neg (by simp : ¬((!true) = true))]
  split_ifs <;>
    simp_all [alookup_aset_ne _ _ _ _ hdh, alookup_aset_self]

/-! ## Turn-level rate-limiting lemmas -/

theorem process_turn_allowed (s : AppSettings) (prov : Provider) (handlers : Handlers)
    (user_id phone content name today : String) (st : RedisState) (idx : Nat)
    (h1 : hourCount st phone + 1 ≤ s.LLM_MAX_MESSAGES_PER_USER_HOUR)
    (h2 : dayCount st phone + 1 ≤ s.LLM_MAX_MESSAGES_PER_USER_DAY) :
    hourCount (process s prov handlers user_id phone "text" content name today
        true true st idx).st phone = hourCount st phone + 1 ∧
    dayCount (process s prov handlers user_id phone "text" content name today
        true true st idx).st phone = dayCount st phone + 1 ∧
    Event.rateBlocked ∉ (process s prov handlers user_id phone "text" content name today
        true true st idx).events := by
  obtain ⟨hA, hH, hD⟩ := check_rate_allowed s phone st h1 h2
  unfold process
  dsimp only
  rw [hA]
  rw [if_neg (by simp : ¬((!({ allowed := true } : RateResult).allowed) = true))]
  rw [if_pos (by simp : (("text" == "text") = true))]
  rw [if_pos (by simp : (("text" == "text") = true))]
  unfold get_cached_response
  rw [if_neg (by simp : ¬((!true) = true))]
  cases hc : alookup (check_user_rate_limit s phone true st).2.strs
      (cache_key phone content) with
  | some c =>
      simp only [hc]
      refine ⟨hH, hD, ?_⟩
      intro hmem
      simp at hmem
  | none =>
      simp only [hc]
      rw [if_neg (by simp : ¬(("text" == "image") = true))]
      dsimp only
      have hrl := counters_eq_of_rlState (rlState_process_text s prov handlers user_id
        phone content (get_conversation s phone true (check_user_rate_limit s phone true st).2)
        name today true (check_user_rate_limit s phone true st).2 idx)
      refine ⟨(hourCount_congr phone hrl).trans hH, (dayCount_congr phone hrl).trans hD, ?_⟩
      intro hmem
      have h := process_text_events _ _ _ _ _ _ _ _ _ _ _ _ _ (by simpa using hmem)
      simp [textEvent, loopEvent] at h

theorem process_turn_blocked (s : AppSettings) (prov : Provider) (handlers : Handlers)
    (user_id phone message_type content name today : String) (mediaOk : Bool)
    (st : RedisState) (idx : Nat)
    (h : s.LLM_MAX_MESSAGES_PER_USER_HOUR < hourCount st phone + 1) :
    process s prov handlers user_id phone message_type content name today mediaOk true st idx
      = ⟨Except.ok ⟨hourThrottleMessage, none, none, { blocked := true }⟩,
          (check_user_rate_limit s phone true st).2, idx, [Event.rateBlocked]⟩ := by
  unfold process
  dsimp only
  rw [check_rate_blocked_hour s phone st h]
  rfl

/-! ## Iterated turns -/

theorem runTurns_counts (s : AppSettings) (prov : Provider) (handlers : Handlers)
    (user_id phone content name today : String)
    (hHD : s.LLM_MAX_MESSAGES_PER_USER_HOUR ≤ s.LLM_MAX_MESSAGES_PER_USER_DAY) :
    ∀ n, n ≤ s.LLM_MAX_MESSAGES_PER_USER_HOUR →
      hourCount (runTurns s prov handlers user_id phone content name today true n).1 phone = n ∧
      dayCount (runTurns s prov handlers user_id phone content name today true n).1 phone = n := by
  intro n
  induction n with
  | zero =>
      intro _
      simp [runTurns, st0, hourCount, dayCount, alookup]
  | succ k ih =>
      intro hk
      obtain ⟨hh, hd⟩ := ih (Nat.le_of_succ_le hk)
      unfold runTurns
      dsimp only
      obtain ⟨ph, pd, _⟩ := process_turn_allowed s prov handlers user_id phone content
        name today (runTurns s prov handlers user_id phone content name today true k).1
        (runTurns s prov handlers user_id phone content name today true k).2
        (by omega) (by omega)
      exact ⟨by rw [ph, hh], by rw [pd, hd]⟩

/-! ## C5 — throttle boundary -/

/-- C5: starting from a fresh store, with the store healthy, one user's first
`LLM_MAX_MESSAGES_PER_USER_HOUR` text turns all pass the rate limiter
(no `rateBlocked` event), and the next turn is short-circuited: it returns
exactly the fixed hourly throttle message with zero token usage
(`blocked` tokens record), consumes no provider call (same call index), and
its only event is the rate-block — no model call, no cache lookup and no
tool execution happen.  Holds for every provider and handler behaviour,
provided the hourly ceiling does not exceed the daily one (true of the
defaults 30 ≤ 200). -/
theorem C5_throttle_boundary (s : AppSettings) (prov : Provider) (handlers : Handlers)
    (user_id phone content name today : String)
    (hHD : s.LLM_MAX_MESSAGES_PER_USER_HOUR ≤ s.LLM_MAX_MESSAGES_PER_USER_DAY) :
    (∀ n, n < s.LLM_MAX_MESSAGES_PER_USER_HOUR →
      Event.rateBlocked ∉
        (turnOut s prov handlers user_id phone content name today true n).events) ∧
    (turnOut s prov handlers user_id phone content name today true
        s.LLM_MAX_MESSAGES_PER_USER_HOUR).result
      = Except.ok ⟨hourThrottleMessage, none, none, { blocked := true }⟩ ∧
    (turnOut s prov handlers user_id phone content name today true
        s.LLM_MAX_MESSAGES_PER_USER_HOUR).idx
      = (runTurns s prov handlers user_id phone content name today true
          s.LLM_MAX_MESSAGES_PER_USER_HOUR).2 ∧
    (turnOut s prov handlers user_id phone content name today true
        s.LLM_MAX_MESSAGES_PER_USER_HOUR).events = [Event.rateBlocked] := by
  constructor
  · intro n hn
    obtain ⟨hh, hd⟩ := runTurns_counts s prov handlers user_id phone content name today
      hHD n (Nat.le_of_lt hn)
    obtain ⟨_, _, hni⟩ := process_turn_allowed s prov handlers user_id phone content
      name today (runTurns s prov handlers user_id phone content name today true n).1
      (runTurns s prov handlers user_id phone content name today true n).2
      (by omega) (by omega)
    exact hni
  · obtain ⟨hh, hd⟩ := runTurns_counts s prov handlers user_id phone content name today
      hHD s.LLM_MAX_MESSAGES_PER_USER_HOUR (Nat.le_refl _)
    have hb := process_turn_blocked s prov handlers user_id phone "text" content name
      today true
      (runTurns s prov handlers user_id phone content name today true
        s.LLM_MAX_MESSAGES_PER_USER_HOUR).1
      (runTurns s prov handlers user_id phone content name today true
        s.LLM_MAX_MESSAGES_PER_USER_HOUR).2
      (by omega)
    unfold turnOut
    dsimp only
    rw [hb]
    exact ⟨rfl, rfl, rfl⟩

/-- Instantiation of C5 at small ceilings (1 per hour, 2 per day): the first
turn passes, the second is throttled with the fixed message, zero token
usage, no provider-call consumption, and the rate-block as its only event.
-/
theorem C5_throttle_boundary_witness :
    (Event.rateBlocked ∉
      (turnOut { LLM_MAX_MESSAGES_PER_USER_HOUR := 1, LLM_MAX_MESSAGES_PER_USER_DAY := 2 }
        provOkGreeting noHandlers "u" "p" "oi" "U" "d" true 0).events) ∧
    (turnOut { LLM_MAX_MESSAGES_PER_USER_HOUR := 1, LLM_MAX_MESSAGES_PER_USER_DAY := 2 }
        provOkGreeting noHandlers "u" "p" "oi" "U" "d" true 1).result
      = Except.ok ⟨hourThrottleMessage, none, none, { blocked := true }⟩ ∧
    (turnOut { LLM_MAX_MESSAGES_PER_USER_HOUR := 1, LLM_MAX_MESSAGES_PER_USER_DAY := 2 }
        provOkGreeting noHandlers "u" "p" "oi" "U" "d" true 1).events
      = [Event.rateBlocked] := by
  have h := C5_throttle_boundary
    { LLM_MAX_MESSAGES_PER_USER_HOUR := 1, LLM_MAX_MESSAGES_PER_USER_DAY := 2 }
    provOkGreeting noHandlers "u" "p" "oi" "U" "d" (by decide)
  exact ⟨h.1 0 (by decide), h.2.1, h.2.2.2⟩

/-! ## C7 — cache population invariant -/

/-- C7: the response cache is only ever populated by text turns that required
no tool call and did not error: whenever `_process_text` changes any
response-cache entry, the turn completed with an `MCPResponse` whose token
record shows no tool use and no error (so tool-use turns and error turns
never store a cache entry); and image turns never touch the response cache —
`_process_image` leaves every response-cache entry unchanged, and a turn
processed with `message_type = "image"` emits no cache-lookup or
cache-write event. -/
theorem C7_cache_population_invariant (s : AppSettings) (prov : Provider)
    (handlers : Handlers) (user_id phone text : String) (conversation : List Msg)
    (name today : String) (mediaOk redisOk : Bool) (st : RedisState) (idx : Nat) :
    (∀ p t, alookup (process_text s prov handlers user_id phone text conversation
          name today redisOk st idx).st.strs (SKey.cacheLLM p t)
        ≠ alookup st.strs (SKey.cacheLLM p t) →
      ∃ resp : MCPResponse,
        (process_text s prov handlers user_id phone text conversation name today
          redisOk st idx).result = Except.ok resp ∧
        resp.tokens_used.hadToolUse = false ∧ resp.tokens_used.error = false) ∧
    (∀ p t, alookup (process_image s prov handlers user_id phone text conversation
          today mediaOk redisOk st idx).st.strs (SKey.cacheLLM p t)
        = alookup st.strs (SKey.cacheLLM p t)) ∧
    (∀ e ∈ (process s prov handlers user_id phone "image" text name today mediaOk
        redisOk st idx).events, ∀ q, e ≠ Event.cacheLookup q ∧ e ≠ Event.cacheWrite q) := by
  refine ⟨?_, ?_, ?_⟩
  · intro p t
    unfold process_text
    dsimp only
    cases hp : prov idx with
    | ok r =>
        simp only [hp]
        intro hne
        exact absurd (by simp [strs_save_conversation, strs_cacheLLM_track_tokens]) hne
    | apiError =>
        simp only [hp]
        intro hne
        obtain ⟨h1, h2, h3⟩ := process_text_footer_cache_write _ _ _ _ _ _ _ _ _ _ _ hne
        exact ⟨_, h1, h2, h3⟩
    | exn =>
        simp only [hp]
        intro hne
        obtain ⟨h1, h2, h3⟩ := process_text_footer_cache_write _ _ _ _ _ _ _ _ _ _ _ hne
        exact ⟨_, h1, h2, h3⟩
    | notFound =>
        simp only [hp]
        split
        · intro hne
          exact absurd rfl hne
        · cases hp2 : prov (idx + 1) with
          | ok r2 =>
              simp only [hp2, needs_reroute_true, Bool.false_eq_true, if_false]
              split
              · intro hne
                exact absurd (by simp [handle_tool_loop,
                  strs_cacheLLM_handle_tool_loop_aux, strs_cacheLLM_track_tokens]) hne
              · intro hne
                obtain ⟨h1, h2, h3⟩ :=
                  process_text_footer_cache_write_from _ _ _ _ _ _ _ _ _ _ _ _
                    (by simp [handle_tool_loop, strs_cacheLLM_handle_tool_loop_aux,
                      strs_cacheLLM_track_tokens]) hne
                exact ⟨_, h1, h2, h3⟩
          | notFound =>
              simp only [hp2]
              intro hne
              exact absurd rfl hne
          | apiError =>
              simp only [hp2]
              intro hne
              exact absurd rfl hne
          | exn =>
              simp only [hp2]
              intro hne
              exact absurd rfl hne
  · intro p t
    unfold process_image process_image_finish
    dsimp only
    cases mediaOk with
    | false => rfl
    | true =>
        rw [if_neg (by simp : ¬((!true) = true))]
        cases hp : prov idx with
        | ok r =>
            simp only [hp]
            split <;>
              simp [handle_tool_loop, strs_save_conversation,
                strs_cacheLLM_handle_tool_loop_aux, strs_cacheLLM_track_tokens]
        | notFound => simp [hp, strs_save_conversation]
        | apiError => simp [hp, strs_save_conversation]
        | exn => simp [hp, strs_save_conversation]
  · intro e he q
    revert he
    unfold process
    dsimp only
    cases hb : (check_user_rate_limit s phone redisOk st).1.allowed with
    | false =>
        simp only [hb, Bool.not_false]
        rw [if_pos trivial]
        intro he
        have h : e = Event.rateBlocked := by simpa using he
        subst h
        exact ⟨by simp, by simp⟩
    | true =>
        rw [if_neg (by simp : ¬((!true) = true))]
        rw [if_neg (by simp : ¬(("image" == "text") = true))]
        rw [if_neg (by simp : ¬(("image" == "text") = true))]
        dsimp only
        rw [if_pos (by simp : (("image" == "image") = true))]
        intro he
        have h := process_image_events _ _ _ _ _ _ _ _ _ _ _ _ _ (by simpa using he)
        have h' : (∃ m, e = Event.modelCall m) ∨ (∃ n, e = Event.toolExec n) := h
        rcases h' with ⟨m, rfl⟩ | ⟨n, rfl⟩ <;> exact ⟨by simp, by simp⟩

/-- Instantiation of C7: in the fallback scenario (light model missing, full
model answers terminally with no tool call and no error), the turn does
store a cache entry, and the theorem certifies the stored turn had
`had_tool_use = False` and no error. -/
theorem C7_cache_population_invariant_witness :
    ∃ resp : MCPResponse,
      (process_text defaultSettings provFallback noHandlers "u1" "p1" "oi" [] "U" "d"
        true st0 0).result = Except.ok resp ∧
      resp.tokens_used.hadToolUse = false ∧ resp.tokens_used.error = false :=
  (C7_cache_population_invariant defaultSettings provFallback noHandlers "u1" "p1"
    "oi" [] "U" "d" true true st0 0).1 "p1" "oi" (by decide)

/-! ## C1 — `process` throws on the normal success path -/

/-- C1 refutation (code bug): a plain text turn in which the rate limiter
allows the message, the store works, and the model immediately returns a
successful terminal greeting makes `process` raise `NameError` instead of
returning an `MCPResponse`: because lines 274–299 of `_process_text` are
indented inside the `except anthropic.NotFoundError` handler, the success
path never binds `result_text`, and line 311 references the unbound local.
-/
theorem C1_process_success_path_raises :
    greetingResponse.stop_reason = "end_turn" ∧
    (process defaultSettings provOkGreeting noHandlers "u1" "5511999999999" "text" "oi"
        "Usuário" "2026-10-12" true true st0 0).result
      = Except.error PyErr.nameError :=
  ⟨rfl, rfl⟩

/-! ## C3 — the lacks-capability re-route never happens -/

/-- C3 refutation (code bug): "oi" routes to the light model, and the model
answers terminally (`end_turn`, no tool call) with a text matching the
lacks-capability heuristic ("não consigo ...") — the exact trigger of the
claim — yet `_process_text` performs no second create call (the final call
index is 1) and raises `NameError` instead of re-issuing the turn on the
full model.  The `needs_reroute` check sits inside the
`except anthropic.NotFoundError` handler after `use_tools = True`
(lines 270–285), where it is identically false. -/
theorem C3_no_reroute_on_lacks_capability :
    select_model defaultSettings "oi" = defaultSettings.ANTHROPIC_MODEL_LIGHT ∧
    lacksResponse.stop_reason = "end_turn" ∧
    listHasSub "não consigo".toList ("Não consigo fazer isso.".toList.map Char.toLower)
      = true ∧
    (∀ r : MResponse, needs_reroute true r = false) ∧
    (process_text defaultSettings provLacks noHandlers "u1" "p1" "oi" [] "U" "d"
        true st0 0).idx = 1 ∧
    (process_text defaultSettings provLacks noHandlers "u1" "p1" "oi" [] "U" "d"
        true st0 0).result = Except.error PyErr.nameError := by
  refine ⟨by decide, rfl, by decide, ?_, rfl, rfl⟩
  intro r
  simp [needs_reroute]

/-! ## C9 — fail-open components, but `process` still raises -/

/-- C9 partial refutation (code bug): with every store operation raising
(`redisOk = false`), the rate check fails open to "allowed", the cache
lookup reports a miss, and the history read returns the empty list — the
three fail-open components of the claim hold — but `process` does not
complete with a model-derived answer: the same mis-indentation as in C1
makes the successful model turn raise `NameError`. -/
theorem C9_store_failure_failopen_but_raises :
    (∀ (s : AppSettings) (phone : String) (st : RedisState),
        check_user_rate_limit s phone false st = ({ allowed := true }, st)) ∧
    (∀ (phone text : String) (st : RedisState),
        get_cached_response phone text false st = none) ∧
    (∀ (s : AppSettings) (phone : String) (st : RedisState),
        get_conversation s phone false st = []) ∧
    (process defaultSettings provOkGreeting noHandlers "u1" "p1" "text" "oi" "U" "d"
        true false st0 0).result = Except.error PyErr.nameError := by
  exact ⟨fun _ _ _ => rfl, fun _ _ _ => rfl, fun _ _ _ => rfl, rfl⟩

/-! ## Hash-table lemmas for the telemetry theorems -/

theorem hget_rHincrby_self_field (st : RedisState) (k : HKey) (f : String) (a : Nat) :
    hget (rHincrby st k f a) k f = some (hgetD st k f + a) := by
  simp [hget, hgetD, rHincrby, alookup_aset_self]

theorem hget_rHincrby_ne_field (st : RedisState) (k : HKey) (f f' : String) (a : Nat)
    (h : f' ≠ f) : hget (rHincrby st k f a) k f' = hget st k f' := by
  simp [hget, rHincrby, alookup_aset_self, alookup_aset_ne _ _ _ _ h]

theorem hget_rHincrby_ne_key (st : RedisState) (k k' : HKey) (f f' : String) (a : Nat)
    (h : k' ≠ k) : hget (rHincrby st k f a) k' f' = hget st k' f' := by
  simp [hget, rHincrby, alookup_aset_ne _ _ _ _ h]

theorem hexp_rHincrby (st : RedisState) (k : HKey) (f : String) (a : Nat) (k' : HKey) :
    hexp (rHincrby st k f a) k' = hexp st k' := rfl

theorem hget_rExpireHash (st : RedisState) (k : HKey) (ttl : Nat) (k' : HKey) (f : String) :
    hget (rExpireHash st k ttl) k' f = hget st k' f := rfl

theorem hexp_rExpireHash_self (st : RedisState) (k : HKey) (ttl : Nat) :
    hexp (rExpireHash st k ttl) k = some ttl := by
  simp [hexp, rExpireHash, alookup_aset_self]

theorem hexp_rExpireHash_ne (st : RedisState) (k k' : HKey) (ttl : Nat) (h : k' ≠ k) :
    hexp (rExpireHash st k ttl) k' = hexp st k' := by
  simp [hexp, rExpireHash, alookup_aset_ne _ _ _ _ h]

theorem check_cost_alert_hashes (s : AppSettings) (today : String) (st : RedisState) :
    (check_cost_alert s today st).hashes = st.hashes := by
  unfold check_cost_alert
  dsimp only
  split_ifs <;> simp [rSetex]

theorem check_cost_alert_hashExp (s : AppSettings) (today : String) (st : RedisState) :
    (check_cost_alert s today st).hashExp = st.hashExp := by
  unfold check_cost_alert
  dsimp only
  split_ifs <;> simp [rSetex]

theorem hget_check_cost_alert (s : AppSettings) (today : String) (st : RedisState)
    (k : HKey) (f : String) : hget (check_cost_alert s today st) k f = hget st k f := by
  simp [hget, check_cost_alert_hashes]

theorem hexp_check_cost_alert (s : AppSettings) (today : String) (st : RedisState)
    (k : HKey) : hexp (check_cost_alert s today st) k = hexp st k := by
  simp [hexp, check_cost_alert_hashExp]

theorem hget_rHincrby_user_global (st : RedisState) (p t t' f f' : String) (a : Nat) :
    hget (rHincrby st (HKey.global t') f' a) (HKey.user p t) f
      = hget st (HKey.user p t) f :=
  hget_rHincrby_ne_key st (HKey.global t') (HKey.user p t) f' f a (by simp)

theorem hget_rHincrby_global_user (st : RedisState) (p t t' f f' : String) (a : Nat) :
    hget (rHincrby st (HKey.user p t) f' a) (HKey.global t') f
      = hget st (HKey.global t') f :=
  hget_rHincrby_ne_key st (HKey.user p t) (HKey.global t') f' f a (by simp)

theorem hexp_rExpireHash_user_global (st : RedisState) (p t t' : String) (ttl : Nat) :
    hexp (rExpireHash st (HKey.global t') ttl) (HKey.user p t)
      = hexp st (HKey.user p t) :=
  hexp_rExpireHash_ne st (HKey.global t') (HKey.user p t) ttl (by simp)

/-! ## C8 — token telemetry -/

/-- C8 counterexample: on a response whose usage reports 7 cache-creation
tokens, `_track_tokens` leaves the per-user-per-day record with no
`cache_create` field at all while the global record receives 7 — the claim's
"adds all four of them to both records" is false for the per-user record
(the source increments `cache_create` only on the global key, lines 522–526
vs 529–535). -/
theorem C8_counterexample :
    cacheCreateResponse.usage.cache_creation_input_tokens = some 7 ∧
    hget (track_tokens defaultSettings "p" "d" cacheCreateResponse true st0).2
        (HKey.user "p" "d") "cache_create" = none ∧
    hget (track_tokens defaultSettings "p" "d" cacheCreateResponse true st0).2
        (HKey.global "d") "cache_create" = some 7 := by
  refine ⟨rfl, by decide, by decide⟩

/-- C8 (amended): on every model response `_track_tokens` (store reachable)
adds the input-, output- and cache-read-token counts (missing usage fields
as zero) to the per-user-per-day record, adds all four counts including
cache-creation to the global-per-day record, increments both request
counters by 1, and (re)applies each record's TTL (172800 s per-user,
604800 s global); the per-user record's cache-creation field is untouched. -/
theorem C8_token_tracking (s : AppSettings) (st : RedisState)
    (phone today : String) (r : MResponse) :
    let st' := (track_tokens s phone today r true st).2
    let uk : HKey := HKey.user phone today
    let gk : HKey := HKey.global today
    hgetD st' uk "input" = hgetD st uk "input" + r.usage.input_tokens.getD 0 ∧
    hgetD st' uk "output" = hgetD st uk "output" + r.usage.output_tokens.getD 0 ∧
    hgetD st' uk "cache_read"
        = hgetD st uk "cache_read" + r.usage.cache_read_input_tokens.getD 0 ∧
    hgetD st' uk "requests" = hgetD st uk "requests" + 1 ∧
    hget st' uk "cache_create" = hget st uk "cache_create" ∧
    hgetD st' gk "input" = hgetD st gk "input" + r.usage.input_tokens.getD 0 ∧
    hgetD st' gk "output" = hgetD st gk "output" + r.usage.output_tokens.getD 0 ∧
    hgetD st' gk "cache_read"
        = hgetD st gk "cache_read" + r.usage.cache_read_input_tokens.getD 0 ∧
    hgetD st' gk "cache_create"
        = hgetD st gk "cache_create" + r.usage.cache_creation_input_tokens.getD 0 ∧
    hgetD st' gk "requests" = hgetD st gk "requests" + 1 ∧
    hexp st' uk = some 172800 ∧
    hexp st' gk = some 604800 := by
  intro st' uk gk
  unfold st' uk gk track_tokens
  simp only [Bool.not_true, Bool.false_eq_true, if_false, hgetD]
  refine ⟨?_, ?_, ?_, ?_, ?_, ?_, ?_, ?_, ?_, ?_, ?_, ?_⟩ <;>
    simp (disch := decide) [hget_check_cost_alert, hexp_check_cost_alert,
      hget_rExpireHash, hexp_rHincrby,
      hget_rHincrby_user_global, hget_rHincrby_global_user,
      hexp_rExpireHash_user_global, hexp_rExpireHash_self,
      hget_rHincrby_self_field, hget_rHincrby_ne_field, hgetD]

/-! ## C6 — bounded tool loop -/

theorem handle_tool_loop_aux_idx_le (s : AppSettings) (prov : Provider)
    (handlers : Handlers) (phone today : String) (redisOk : Bool) :
    ∀ (fuel : Nat) (r : MResponse) (msgs : List PyMsg) (st : RedisState)
      (idx : Nat) (evs : List Event),
      (handle_tool_loop_aux s prov handlers phone today redisOk fuel r msgs st idx evs).idx
        ≤ idx + fuel := by
  intro fuel
  induction fuel with
  | zero =>
      intro r msgs st idx evs
      simp [handle_tool_loop_aux]
  | succ n ih =>
      intro r msgs st idx evs
      unfold handle_tool_loop_aux
      split
      · simp
      · cases hp : prov idx with
        | ok r' =>
            simp only [hp]
            calc (handle_tool_loop_aux s prov handlers phone today redisOk n r' _ _ (idx + 1) _).idx
                ≤ (idx + 1) + n := ih r' _ _ (idx + 1) _
              _ ≤ idx + (n + 1) := by omega
        | notFound => simp [hp]
        | apiError => simp [hp]
        | exn => simp [hp]

theorem handle_tool_loop_aux_always_tool (s : AppSettings) (p : Nat → MResponse)
    (handlers : Handlers) (phone today : String) (redisOk : Bool)
    (hall : ∀ n, (p n).stop_reason = "tool_use") :
    ∀ (fuel : Nat) (r : MResponse) (msgs : List PyMsg) (st : RedisState)
      (idx : Nat) (evs : List Event), r.stop_reason = "tool_use" →
      (handle_tool_loop_aux s (fun n => Outcome.ok (p n)) handlers phone today redisOk
          (fuel + 1) r msgs st idx evs).idx = idx + (fuel + 1) ∧
      (handle_tool_loop_aux s (fun n => Outcome.ok (p n)) handlers phone today redisOk
          (fuel + 1) r msgs st idx evs).result
        = Except.ok (textJoin (p (idx + fuel)).content) := by
  intro fuel
  induction fuel with
  | zero =>
      intro r msgs st idx evs h0
      unfold handle_tool_loop_aux
      rw [if_neg (by simp [h0])]
      simp [handle_tool_loop_aux]
  | succ n ih =>
      intro r msgs st idx evs h0
      unfold handle_tool_loop_aux
      rw [if_neg (by simp [h0])]
      dsimp only
      refine ⟨?_, ?_⟩
      · rw [(ih (p idx) _ _ (idx + 1) _ (hall idx)).1]
        omega
      · rw [(ih (p idx) _ _ (idx + 1) _ (hall idx)).2]
        have h1 : idx + 1 + n = idx + (n + 1) := by omega
        rw [h1]

/-- C6: `_handle_tool_loop` terminates for every model behaviour — across any
provider it makes at most `max_iterations` (= 5) additional create calls —
and against a model that requests tool use on every response it makes
exactly 5 additional calls and then returns the concatenated text content
of the last response instead of erroring or looping. -/
theorem C6_loop_bounded_termination (s : AppSettings) (prov : Provider)
    (handlers : Handlers) (phone today : String) (redisOk : Bool)
    (r0 : MResponse) (msgs : List PyMsg) (st : RedisState) (idx : Nat) :
    (handle_tool_loop s prov handlers phone today redisOk r0 msgs st idx).idx
        ≤ idx + max_iterations ∧
    (∀ p : Nat → MResponse, (∀ n, (p n).stop_reason = "tool_use") →
      r0.stop_reason = "tool_use" →
      (handle_tool_loop s (fun n => Outcome.ok (p n)) handlers phone today redisOk
          r0 msgs st idx).idx = idx + max_iterations ∧
      (handle_tool_loop s (fun n => Outcome.ok (p n)) handlers phone today redisOk
          r0 msgs st idx).result = Except.ok (textJoin (p (idx + 4)).content)) := by
  constructor
  · exact handle_tool_loop_aux_idx_le s prov handlers phone today redisOk
      max_iterations r0 msgs st idx []
  · intro p hall h0
    exact handle_tool_loop_aux_always_tool s p handlers phone today redisOk hall
      4 r0 msgs st idx [] h0

/-- Instantiation of C6 on a model that always answers with a pure tool-use
response carrying no text block: the loop stops after exactly 5 extra calls
and returns the empty string. -/
theorem C6_loop_bounded_termination_witness :
    (handle_tool_loop defaultSettings (fun _ => Outcome.ok toolOnlyResponse) noHandlers
        "p" "d" true toolOnlyResponse [] st0 0).idx = 0 + max_iterations ∧
    (handle_tool_loop defaultSettings (fun _ => Outcome.ok toolOnlyResponse) noHandlers
        "p" "d" true toolOnlyResponse [] st0 0).result = Except.ok "" := by
  have h := (C6_loop_bounded_termination defaultSettings
      (fun _ => Outcome.ok toolOnlyResponse) noHandlers "p" "d" true
      toolOnlyResponse [] st0 0).2 (fun _ => toolOnlyResponse) (fun _ => rfl) rfl
  simpa using h

theorem C10_hourly_reject_skips_daily_witness :
    (check_user_rate_limit { LLM_MAX_MESSAGES_PER_USER_HOUR := 0 } "p" true st0).1
        = { allowed := false, message := hourThrottleMessage } ∧
    alookup (check_user_rate_limit { LLM_MAX_MESSAGES_PER_USER_HOUR := 0 } "p" true st0).2.counters
        (CKey.day "p") = alookup st0.counters (CKey.day "p") ∧
    alookup (check_user_rate_limit { LLM_MAX_MESSAGES_PER_USER_HOUR := 0 } "p" true st0).2.counterExp
        (CKey.day "p") = alookup st0.counterExp (CKey.day "p") :=
  C10_hourly_reject_skips_daily { LLM_MAX_MESSAGES_PER_USER_HOUR := 0 } st0 "p" (by decide)

end SuvFin
